import Mathlib

/-!
Shallow embedding of `src/content/post/api_auth/src/app.py` (a minimal
session/token authentication service) and proofs about it.

Python dicts holding string values are embedded as association lists
(`Rec`); the module-level `defaultdict` stores `Users` and `Tokens` are
embedded as total functions with explicit defaults (`Option Rec` with
default `none`, `List String` with default `[]`).  The Flask `session`
dict is embedded as a record of its three optional keys.  The random
`str(uuid4())` draw in `signin` is passed in as an explicit argument.
-/

namespace ApiAuth

/-- A Python dict with string keys and values, as an association list.
`{}` is `[]`.  Python truthiness of such a dict is nonemptiness. -/
abbrev Rec := List (String × String)

/-- `d.get(k)` followed by use as a string: `none` (missing key) is read
as `""` so that Python falsiness (`not value`) of both `None` and `""`
becomes the single test `= ""`.  A `KeyError` on `d[k]` is likewise
embedded as `""`; no reachable state hits that case. -/
def Rec.item (r : Rec) (k : String) : String := (r.lookup k).getD ""

/-- The Flask `session` dict: only the keys `user`, `token`, `handshake`
are ever written by the application or its tests. -/
structure Sess where
  user : Option String := none
  token : Option String := none
  handshake : Option String := none

/-- The inbound request headers the application reads. -/
structure Request where
  authorization : Option String := none
  handshake : Option String := none

/-- Global mutable state of `app.py`: the `Users` and `Tokens`
defaultdicts plus the per-connection `session`. -/
structure AppState where
  users : String → Option Rec
  tokens : String → List String
  session : Sess

/-- State before any request: empty stores, empty session. -/
def initState : AppState :=
  { users := fun _ => none, tokens := fun _ => [], session := {} }

/-! ### `str.strip().split()` on the Authorization header -/

/-- `c.isWhitespace`, the character class used by Python `str.split()`
with no argument (for the ASCII characters that occur here). -/
def isWS (c : Char) : Bool := c.isWhitespace

/-- Word splitter: `splitW l acc` scans `l`, accumulating the current
word in `acc` (reversed); whitespace ends a word.  Models Python
`str.split()` (no empty words). -/
def splitW : List Char → List Char → List (List Char)
  | [], acc => if acc.isEmpty then [] else [acc.reverse]
  | c :: cs, acc =>
    if isWS c then
      if acc.isEmpty then splitW cs [] else acc.reverse :: splitW cs []
    else splitW cs (c :: acc)

/-- Python `str.strip()`: drop leading and trailing whitespace. -/
def strip (l : List Char) : List Char :=
  ((l.dropWhile isWS).reverse.dropWhile isWS).reverse

/-- `s.strip().split()` from line 32 of `app.py`. -/
def words (s : String) : List String :=
  (splitW (strip s.data) []).map List.asString

/-! ### The authentication guard -/

/-- The distinct rejections of the guard.  `handshakeFailed` is the
rejection the repository's test-suite expects from a hardened revision;
`authenticate` in `app.py` never produces it (see the C3 theorem). -/
inductive AuthErr
  | missingCookie
  | missingBearer
  | invalidToken
  | handshakeFailed
  deriving DecidableEq, Repr

/-- The `(message, status)` pair each rejection returns.  The first
three are from `app.py` lines 30, 34, 38; the last is the pair the
test-suite (`test_app.py`) expects. -/
def AuthErr.response : AuthErr → String × Nat
  | .missingCookie => ("Authentication cookie missing", 401)
  | .missingBearer => ("Authentication bearer missing", 401)
  | .invalidToken => ("Invalid token", 401)
  | .handshakeFailed => ("Handshake failed", 401)

/-- Outcome of the `authenticate` middleware: either a rejection, or
acceptance carrying `g.user` together with the `Users` store after the
`Users[email]` defaultdict access (which inserts `{}` when the email is
absent). -/
inductive AuthResult
  | reject (e : AuthErr)
  | accept (user : Rec) (users : String → Option Rec)

/-- `authenticate` from `app.py` lines 25-43:
```
email = session.get("user")
if not email: return "Authentication cookie missing", 401
bearer = request.headers.get("Authorization", "").strip().split()
if not bearer: return "Authentication bearer missing", 401
token = bearer[-1]
if token not in Tokens.get(email, []): return "Invalid token", 401
g.user = Users[email]
return func(...)
```
-/
def authenticate (st : AppState) (req : Request) : AuthResult :=
  if (st.session.user.getD "") = "" then .reject .missingCookie
  else
    match (words (req.authorization.getD "")).getLast? with
    | none => .reject .missingBearer
    | some token =>
      if token ∈ st.tokens (st.session.user.getD "") then
        match st.users (st.session.user.getD "") with
        | some u => .accept u st.users
        | none =>
          .accept []
            (fun e => if e = (st.session.user.getD "") then some [] else st.users e)
      else .reject .invalidToken

/-! ### Controllers -/

/-- `require(keys, data)` from `app.py` lines 14-21: collects the
values of `keys` in order, failing on the first missing/falsy one. -/
def require : List String → Rec → Except (String × Nat) Rec
  | [], _ => .ok []
  | k :: ks, data =>
    let value := data.item k
    if value = "" then .error ("Invalid parameter: " ++ k ++ " missing", 400)
    else
      match require ks data with
      | .error e => .error e
      | .ok ps => .ok ((k, value) :: ps)

/-- `signup` from `app.py` lines 50-64.  `sha256(...).hexdigest()` is
abstracted as the function argument `hash`. -/
def signup (hash : String → String) (st : AppState) (body : Rec) :
    AppState × (String × Nat) :=
  match require ["name", "email", "password"] body with
  | .error e => (st, e)
  | .ok params =>
    if (st.users (params.item "email")).isSome then
      (st, ("User " ++ params.item "email" ++ " already exists", 409))
    else
      ({ st with
          users := fun e =>
            if e = params.item "email" then
              some [("email", params.item "email"),
                    ("name", params.item "name"),
                    ("password", hash (params.item "password"))]
            else st.users e },
        ("Created", 201))

/-- `signin` from `app.py` lines 67-80.  The random token
`str(uuid4())` is the explicit argument `freshToken`; the password hash
is the function argument `hash`. -/
def signin (hash : String → String) (st : AppState) (body : Rec)
    (freshToken : String) : AppState × (String × Nat) :=
  match require ["email", "password"] body with
  | .error e => (st, e)
  | .ok params =>
    match st.users (params.item "email") with
    | none => (st, ("Unauthorized", 403))
    | some user =>
      if user = [] ∨ user.item "password" ≠ hash (params.item "password") then
        (st, ("Unauthorized", 403))
      else
        ({ st with
            tokens := fun e =>
              if e = user.item "email" then st.tokens e ++ [freshToken]
              else st.tokens e,
            session := { st.session with user := some (user.item "email") } },
          (freshToken, 200))

/-- `signout` from `app.py` lines 83-85: `session.clear(); return 200`.
Note the returned value is the bare integer `200` with no body, and the
`Tokens` store is not touched. -/
def signout (st : AppState) : AppState × Nat :=
  ({ st with session := {} }, 200)

/-- `whoami` from `app.py` lines 88-91, wrapped by `authenticate`:
on acceptance returns `{email, name}` of `g.user` with 200, otherwise
the guard's `(message, 401)` pair. -/
def whoami (st : AppState) (req : Request) :
    AppState × Except (String × Nat) ((String × String) × Nat) :=
  match authenticate st req with
  | .reject e => (st, .error e.response)
  | .accept u f =>
    ({ st with users := f }, .ok ((u.item "email", u.item "name"), 200))

/-- Iterated `signin` with a given supply of fresh tokens (one
`uuid4()` draw per call). -/
def signinMany (hash : String → String) (st : AppState) (body : Rec) :
    List String → AppState
  | [] => st
  | t :: ts => signinMany hash (signin hash st body t).1 body ts

/-- States reachable through the public controllers from the empty
initial state.  `whoami` contributes its state transition (the guard's
possible defaultdict insertion). -/
inductive Reachable (hash : String → String) : AppState → Prop
  | init : Reachable hash initState
  | step_signup (st : AppState) (body : Rec) :
      Reachable hash st → Reachable hash (signup hash st body).1
  | step_signin (st : AppState) (body : Rec) (tok : String) :
      Reachable hash st → Reachable hash (signin hash st body tok).1
  | step_signout (st : AppState) :
      Reachable hash st → Reachable hash (signout st).1
  | step_whoami (st : AppState) (req : Request) :
      Reachable hash st → Reachable hash (whoami st req).1

/-! ### Concrete states used in counterexamples and witnesses -/

/-- The user record the test-suite stores for `user@mail.com`. -/
def demoUser : Rec := [("email", "user@mail.com"), ("name", "user"), ("password", "pw-hash")]

/-- A state whose session records its own expected token `"t1"` while
the registry holds a different live token `"t2"` for the same user. -/
def mismatchState : AppState :=
  { users := fun e => if e = "user@mail.com" then some demoUser else none,
    tokens := fun e => if e = "user@mail.com" then ["t2"] else [],
    session := { user := some "user@mail.com", token := some "t1" } }

/-- The scenario of `test_missing_handshake_header`: session fully
populated including a handshake nonce; the request presents a valid
bearer but no `Handshake` header. -/
def handshakeState : AppState :=
  { users := fun e => if e = "user@mail.com" then some demoUser else none,
    tokens := fun e => if e = "user@mail.com" then ["token"] else [],
    session := { user := some "user@mail.com", token := some "token",
                 handshake := some "handshake" } }

/-- The scenario of `TestSignout.test_success`: a signed-in user with
one live token. -/
def signoutState : AppState :=
  { users := fun e => if e = "user@mail.com" then some demoUser else none,
    tokens := fun e => if e = "user@mail.com" then ["token"] else [],
    session := { user := some "user@mail.com" } }

/-- A concrete well-formed signup body used in witnesses. -/
def wBody : Rec := [("name", "n"), ("email", "a@b"), ("password", "p")]

/-- State after one signup from the initial state (witness support;
the hash is instantiated with the identity function). -/
def wState1 : AppState := (signup (fun s => s) initState wBody).1

/-- State after that signup followed by a successful signin issuing
token `"tok-1"` (witness support). -/
def wState2 : AppState :=
  (signin (fun s => s) wState1 [("email", "a@b"), ("password", "p")] "tok-1").1

/-- Store invariant maintained by every controller: an email with a
non-empty token list has a user record; no stored record is the empty
dict; and every stored record's `email` field equals its key. -/
def Inv (st : AppState) : Prop :=
  (∀ e, st.tokens e ≠ [] → (st.users e).isSome) ∧
  (∀ e, st.users e ≠ some []) ∧
  (∀ e u, st.users e = some u → u.item "email" = e)

/-! ## Theorems -/

theorem splitW_ws_all : ∀ (ws : List Char), (∀ c ∈ ws, isWS c = true) →
    ∀ acc, splitW ws acc = if acc.isEmpty then [] else [acc.reverse] := by
  intro ws
  induction ws with
  | nil => intro _ acc; rfl
  | cons c cs ih =>
    intro h acc
    have hc : isWS c = true := h c (List.mem_cons_self c cs)
    have hcs : ∀ x ∈ cs, isWS x = true := fun x hx => h x (List.mem_cons_of_mem _ hx)
    have h2 := ih hcs []
    by_cases ha : acc.isEmpty = true <;> simp [splitW, hc, ha, h2]

theorem splitW_append_ws (ws : List Char) (hws : ∀ c ∈ ws, isWS c = true) :
    ∀ (l : List Char) (acc : List Char), splitW (l ++ ws) acc = splitW l acc := by
  intro l
  induction l with
  | nil =>
    intro acc
    rw [List.nil_append]
    exact splitW_ws_all ws hws acc
  | cons c cs ih =>
    intro acc
    by_cases h : isWS c = true <;> simp [splitW, h, ih]

theorem splitW_dropWhile (l : List Char) :
    splitW (l.dropWhile isWS) [] = splitW l [] := by
  induction l with
  | nil => rfl
  | cons c cs ih =>
    by_cases h : isWS c = true <;> simp [List.dropWhile_cons, splitW, h, ih]

theorem strip_decomp (l : List Char) :
    ∃ ws, (∀ c ∈ ws, isWS c = true) ∧ l.dropWhile isWS = strip l ++ ws := by
  refine ⟨((l.dropWhile isWS).reverse.takeWhile isWS).reverse, ?_, ?_⟩
  · intro c hc
    rw [List.mem_reverse] at hc
    exact List.mem_takeWhile_imp hc
  · unfold strip
    rw [← List.reverse_append, List.takeWhile_append_dropWhile, List.reverse_reverse]

theorem splitW_strip (l : List Char) : splitW (strip l) [] = splitW l [] := by
  obtain ⟨ws, hws, hdec⟩ := strip_decomp l
  have h1 : splitW (strip l ++ ws) [] = splitW (strip l) [] :=
    splitW_append_ws ws hws (strip l) []
  have h2 : splitW (l.dropWhile isWS) [] = splitW l [] := splitW_dropWhile l
  rw [← h2, hdec, h1]

theorem words_eq_splitW (s : String) :
    words s = (splitW s.data []).map List.asString := by
  unfold words
  rw [splitW_strip]

theorem words_bearer_append (t : String) :
    words ("Bearer " ++ t) = "Bearer" :: words t := by
  rw [words_eq_splitW, words_eq_splitW, String.data_append]
  have hd : "Bearer ".data = ['B', 'e', 'a', 'r', 'e', 'r', ' '] := rfl
  rw [hd]
  have hB : isWS 'B' = false := by decide
  have he : isWS 'e' = false := by decide
  have ha : isWS 'a' = false := by decide
  have hr : isWS 'r' = false := by decide
  have hsp : isWS ' ' = true := by decide
  have hA : List.asString ['B', 'e', 'a', 'r', 'e', 'r'] = "Bearer" := rfl
  simp [splitW, hB, he, ha, hr, hsp, hA]

/-- C2: the guard checks session presence before bearer extraction: a
request whose session names no authenticated email (absent or empty) is
rejected with the missing-session error `("Authentication cookie
missing", 401)` regardless of the Authorization header, never with the
missing-bearer error. -/
theorem guard_missing_session_first (st : AppState) (req : Request)
    (h : st.session.user.getD "" = "") :
    authenticate st req = .reject .missingCookie ∧
    authenticate st req ≠ .reject .missingBearer ∧
    AuthErr.missingCookie.response = ("Authentication cookie missing", 401) := by
  have h1 : authenticate st req = .reject .missingCookie := by
    simp [authenticate, h]
  refine ⟨h1, ?_, rfl⟩
  rw [h1]
  simp

theorem guard_missing_session_first_witness :
    authenticate initState { authorization := some "Bearer tok" } = .reject .missingCookie ∧
    authenticate initState { authorization := some "Bearer tok" } ≠ .reject .missingBearer ∧
    AuthErr.missingCookie.response = ("Authentication cookie missing", 401) :=
  guard_missing_session_first initState { authorization := some "Bearer tok" } rfl

theorem authenticate_of_getLast (st : AppState) (req : Request) (email tok : String)
    (h1 : st.session.user.getD "" = email) (h2 : email ≠ "")
    (h3 : (words (req.authorization.getD "")).getLast? = some tok) :
    authenticate st req =
      if tok ∈ st.tokens email then
        match st.users email with
        | some u => .accept u st.users
        | none => .accept [] (fun e => if e = email then some [] else st.users e)
      else .reject .invalidToken := by
  unfold authenticate
  rw [h1, if_neg h2, h3]

theorem auth_accept (st : AppState) (req : Request) (email tok : String) (u : Rec)
    (h1 : st.session.user.getD "" = email) (h2 : email ≠ "")
    (h3 : (words (req.authorization.getD "")).getLast? = some tok)
    (h4 : tok ∈ st.tokens email) (h5 : st.users email = some u) :
    authenticate st req = .accept u st.users := by
  rw [authenticate_of_getLast st req email tok h1 h2 h3, if_pos h4, h5]

theorem auth_invalid (st : AppState) (req : Request) (email tok : String)
    (h1 : st.session.user.getD "" = email) (h2 : email ≠ "")
    (h3 : (words (req.authorization.getD "")).getLast? = some tok)
    (h4 : tok ∉ st.tokens email) :
    authenticate st req = .reject .invalidToken := by
  rw [authenticate_of_getLast st req email tok h1 h2 h3, if_neg h4]

/-- C1 counterexample: the session records its own expected token
`"t1"`, the bearer presents the different token `"t2"` which is in the
registry; the guard accepts, although the claim requires rejection with
`InvalidToken` whenever the bearer differs from the session-recorded
token. -/
theorem guard_session_token_not_checked_cex :
    mismatchState.session.token = some "t1" ∧
    mismatchState.tokens "user@mail.com" = ["t2"] ∧
    ("t2" : String) ≠ "t1" ∧
    authenticate mismatchState { authorization := some "Bearer t2" } =
      .accept demoUser mismatchState.users :=
  ⟨rfl, rfl, by decide, rfl⟩

/-- C1 (amended): at the token cross-validation step the guard accepts
iff the extracted bearer token is a member of the Token Registry's list
for the session's email; the token the Session itself records is not
consulted.  On non-membership it rejects with `("Invalid token", 401)`
and the wrapped handler is not invoked (whoami returns the error with
state unchanged). -/
theorem guard_token_membership_only (st : AppState) (req : Request) (email tok : String)
    (h1 : st.session.user.getD "" = email) (h2 : email ≠ "")
    (h3 : (words (req.authorization.getD "")).getLast? = some tok) :
    ((∃ u f, authenticate st req = .accept u f) ↔ tok ∈ st.tokens email) ∧
    (tok ∉ st.tokens email →
      authenticate st req = .reject .invalidToken ∧
      whoami st req = (st, .error ("Invalid token", 401))) := by
  constructor
  · constructor
    · rintro ⟨u, f, hacc⟩
      by_contra hmem
      rw [auth_invalid st req email tok h1 h2 h3 hmem] at hacc
      exact AuthResult.noConfusion hacc
    · intro hmem
      rw [authenticate_of_getLast st req email tok h1 h2 h3, if_pos hmem]
      cases hu : st.users email with
      | none => exact ⟨[], _, rfl⟩
      | some u => exact ⟨u, st.users, rfl⟩
  · intro hmem
    have hi := auth_invalid st req email tok h1 h2 h3 hmem
    refine ⟨hi, ?_⟩
    unfold whoami
    rw [hi]
    rfl

theorem guard_token_membership_only_witness :
    authenticate mismatchState { authorization := some "Bearer zzz" } = .reject .invalidToken ∧
    whoami mismatchState { authorization := some "Bearer zzz" } =
      (mismatchState, .error ("Invalid token", 401)) :=
  (guard_token_membership_only mismatchState { authorization := some "Bearer zzz" }
    "user@mail.com" "zzz" rfl (by decide) rfl).2 (by decide)

/-- C3 (code bug): `authenticate` in `app.py` performs no handshake
check.  In the exact scenario of `test_missing_handshake_header` — a
handshake nonce established in the session, the request presenting a
valid bearer but no `Handshake` header — the guard accepts, while the
repository's own test-suite asserts the rejection
`("Handshake failed", 401)`. -/
theorem guard_accepts_despite_handshake :
    handshakeState.session.handshake = some "handshake" ∧
    authenticate handshakeState
        { authorization := some "Bearer token", handshake := none } =
      .accept demoUser handshakeState.users ∧
    AuthErr.handshakeFailed.response = ("Handshake failed", 401) :=
  ⟨rfl, rfl, rfl⟩

/-- C5 (code bug): `signout` clears the session but returns the bare
integer `200` with no `"Signout"` body and never touches the Token
Registry: the user's issued token survives signout, while the
repository's own test-suite asserts body `"Signout"` and
`Tokens[email] == []`. -/
theorem signout_keeps_tokens :
    signout signoutState = ({ signoutState with session := {} }, 200) ∧
    (signout signoutState).1.tokens "user@mail.com" = ["token"] ∧
    "token" ∈ (signout signoutState).1.tokens "user@mail.com" :=
  ⟨rfl, rfl, by decide⟩

/-- C9: bearer extraction takes the last whitespace-separated word of
the Authorization header: a header containing only the word `Bearer`
is not rejected as missing-bearer but proceeds to token validation
with the literal string `"Bearer"` as the token (rejected as
`InvalidToken` whenever `"Bearer"` is not a registered token), and a
bare single-word token with no `Bearer` prefix is treated identically
to a prefixed one. -/
theorem bearer_last_word (st : AppState) (email : String)
    (h1 : st.session.user.getD "" = email) (h2 : email ≠ "") :
    (authenticate st { authorization := some "Bearer" } ≠ .reject .missingBearer) ∧
    ("Bearer" ∉ st.tokens email →
      authenticate st { authorization := some "Bearer" } = .reject .invalidToken) ∧
    (∀ t hs, words t = [t] →
      authenticate st { authorization := some ("Bearer " ++ t), handshake := hs } =
        authenticate st { authorization := some t, handshake := hs }) := by
  have hw : (words ((some "Bearer" : Option String).getD "")).getLast? = some "Bearer" := rfl
  refine ⟨?_, ?_, ?_⟩
  · intro hc
    rw [authenticate_of_getLast st _ email "Bearer" h1 h2 hw] at hc
    by_cases hm : "Bearer" ∈ st.tokens email
    · rw [if_pos hm] at hc
      cases hu : st.users email <;> rw [hu] at hc <;> exact AuthResult.noConfusion hc
    · rw [if_neg hm] at hc
      simp at hc
  · intro hm
    exact auth_invalid st _ email "Bearer" h1 h2 hw hm
  · intro t hs hwt
    have hA : (words ((some ("Bearer " ++ t) : Option String).getD "")).getLast? = some t := by
      show (words ("Bearer " ++ t)).getLast? = some t
      rw [words_bearer_append, hwt]
      simp
    have hB : (words ((some t : Option String).getD "")).getLast? = some t := by
      show (words t).getLast? = some t
      rw [hwt]
      simp
    rw [authenticate_of_getLast st _ email t h1 h2 hA,
        authenticate_of_getLast st _ email t h1 h2 hB]

theorem bearer_last_word_witness :
    authenticate mismatchState { authorization := some "Bearer" } = .reject .invalidToken ∧
    authenticate mismatchState
        { authorization := some ("Bearer " ++ "t2"), handshake := none } =
      authenticate mismatchState { authorization := some "t2", handshake := none } := by
  have h := bearer_last_word mismatchState "user@mail.com" rfl (by decide)
  exact ⟨h.2.1 (by decide), h.2.2 "t2" none (by decide)⟩

theorem require_signin_body (email pw : String) (he : email ≠ "") (hp : pw ≠ "") :
    require ["email", "password"] [("email", email), ("password", pw)] =
      .ok [("email", email), ("password", pw)] := by
  simp [require, Rec.item, List.lookup, he, hp]

theorem require_signup_body (n email pw : String)
    (hn : n ≠ "") (he : email ≠ "") (hp : pw ≠ "") :
    require ["name", "email", "password"]
        [("name", n), ("email", email), ("password", pw)] =
      .ok [("name", n), ("email", email), ("password", pw)] := by
  simp [require, Rec.item, List.lookup, hn, he, hp]

theorem signin_eval (hash : String → String) (st : AppState) (email pw tok : String)
    (he : email ≠ "") (hp : pw ≠ "") :
    signin hash st [("email", email), ("password", pw)] tok =
      match st.users email with
      | none => (st, ("Unauthorized", 403))
      | some user =>
        if user = [] ∨ user.item "password" ≠ hash pw then (st, ("Unauthorized", 403))
        else ({ st with
                 tokens := fun e =>
                   if e = user.item "email" then st.tokens e ++ [tok] else st.tokens e,
                 session := { st.session with user := some (user.item "email") } },
               (tok, 200)) := by
  unfold signin
  rw [require_signin_body email pw he hp]
  rfl

theorem signup_eval (hash : String → String) (st : AppState) (n email pw : String)
    (hn : n ≠ "") (he : email ≠ "") (hp : pw ≠ "") :
    signup hash st [("name", n), ("email", email), ("password", pw)] =
      if (st.users email).isSome then
        (st, ("User " ++ email ++ " already exists", 409))
      else
        ({ st with
            users := fun e =>
              if e = email then
                some [("email", email), ("name", n), ("password", hash pw)]
              else st.users e },
          ("Created", 201)) := by
  unfold signup
  rw [require_signup_body n email pw hn he hp]
  rfl

/-- C6: a well-formed signin whose email has no stored user, or whose
stored record is empty, or whose stored password hash differs from the
hash of the supplied password, returns `("Unauthorized", 403)` and
leaves the entire state (Token Registry and Session Context included)
unchanged. -/
theorem signin_bad_credentials_unchanged (hash : String → String) (st : AppState)
    (email pw tok : String) (he : email ≠ "") (hp : pw ≠ "")
    (hbad : st.users email = none ∨
      ∃ u, st.users email = some u ∧ (u = [] ∨ u.item "password" ≠ hash pw)) :
    signin hash st [("email", email), ("password", pw)] tok =
      (st, ("Unauthorized", 403)) := by
  rw [signin_eval hash st email pw tok he hp]
  rcases hbad with h | ⟨u, hu, hcase⟩
  · rw [h]
  · rw [hu]
    exact if_pos hcase

theorem signin_bad_credentials_unchanged_witness :
    signin (fun s => s) wState1 [("email", "a@b"), ("password", "wrong")] "tk" =
      (wState1, ("Unauthorized", 403)) :=
  signin_bad_credentials_unchanged (fun s => s) wState1 "a@b" "wrong" "tk"
    (by decide) (by decide)
    (Or.inr ⟨[("email", "a@b"), ("name", "n"), ("password", "p")], rfl,
      Or.inr (by decide)⟩)

/-- C7: signing up the same email twice from a state where it is
absent yields `("Created", 201)` then the 409 conflict; the store then
holds exactly the one record written by the first call (the second
call changes nothing), and no other email's entry is touched. -/
theorem signup_duplicate_conflict (hash : String → String) (st : AppState)
    (n email pw : String) (hn : n ≠ "") (he : email ≠ "") (hp : pw ≠ "")
    (habs : st.users email = none) :
    (signup hash st [("name", n), ("email", email), ("password", pw)]).2 =
      ("Created", 201) ∧
    (signup hash st [("name", n), ("email", email), ("password", pw)]).1.users email =
      some [("email", email), ("name", n), ("password", hash pw)] ∧
    (∀ e, e ≠ email →
      (signup hash st [("name", n), ("email", email), ("password", pw)]).1.users e =
        st.users e) ∧
    (signup hash (signup hash st [("name", n), ("email", email), ("password", pw)]).1
        [("name", n), ("email", email), ("password", pw)]).2 =
      ("User " ++ email ++ " already exists", 409) ∧
    (signup hash (signup hash st [("name", n), ("email", email), ("password", pw)]).1
        [("name", n), ("email", email), ("password", pw)]).1 =
      (signup hash st [("name", n), ("email", email), ("password", pw)]).1 := by
  have hno : ¬((st.users email).isSome = true) := by rw [habs]; simp
  have h1 : signup hash st [("name", n), ("email", email), ("password", pw)] =
      ({ st with
          users := fun e =>
            if e = email then
              some [("email", email), ("name", n), ("password", hash pw)]
            else st.users e },
        ("Created", 201)) := by
    rw [signup_eval hash st n email pw hn he hp, if_neg hno]
  have husers : (signup hash st [("name", n), ("email", email), ("password", pw)]).1.users email =
      some [("email", email), ("name", n), ("password", hash pw)] := by
    rw [h1]
    simp
  have hyes : (((signup hash st [("name", n), ("email", email), ("password", pw)]).1.users
      email).isSome) = true := by
    rw [husers]
    rfl
  have h2 : signup hash (signup hash st [("name", n), ("email", email), ("password", pw)]).1
      [("name", n), ("email", email), ("password", pw)] =
      ((signup hash st [("name", n), ("email", email), ("password", pw)]).1,
        ("User " ++ email ++ " already exists", 409)) := by
    rw [signup_eval hash _ n email pw hn he hp, if_pos hyes]
  refine ⟨by rw [h1], husers, ?_, by rw [h2], by rw [h2]⟩
  intro e hne
  rw [h1]
  simp [hne]

theorem signup_duplicate_conflict_witness :
    (signup (fun s => s) (signup (fun s => s) initState wBody).1 wBody).2 =
      ("User " ++ "a@b" ++ " already exists", 409) ∧
    (signup (fun s => s) (signup (fun s => s) initState wBody).1 wBody).1 =
      (signup (fun s => s) initState wBody).1 :=
  ⟨(signup_duplicate_conflict (fun s => s) initState "n" "a@b" "p"
      (by decide) (by decide) (by decide) rfl).2.2.2.1,
   (signup_duplicate_conflict (fun s => s) initState "n" "a@b" "p"
      (by decide) (by decide) (by decide) rfl).2.2.2.2⟩

/-- C8: the credential verification performed by signin succeeds iff
the hash of the supplied password equals the stored `password` field:
on match it issues the token and binds the session, on mismatch (so in
particular for any password whose hash differs) it fails, and a
missing user and a wrong password both produce the identical result
`(state unchanged, ("Unauthorized", 403))`. -/
theorem signin_verify_hash (hash : String → String) (st : AppState)
    (email pw : String) (u : Rec) (tok : String)
    (he : email ≠ "") (hp : pw ≠ "")
    (hu : st.users email = some u) (hne : u ≠ []) :
    (u.item "password" = hash pw →
      signin hash st [("email", email), ("password", pw)] tok =
        ({ st with
            tokens := fun e =>
              if e = u.item "email" then st.tokens e ++ [tok] else st.tokens e,
            session := { st.session with user := some (u.item "email") } },
          (tok, 200))) ∧
    (u.item "password" ≠ hash pw →
      signin hash st [("email", email), ("password", pw)] tok =
        (st, ("Unauthorized", 403))) ∧
    (∀ email2 pw2, email2 ≠ "" → pw2 ≠ "" → st.users email2 = none →
      signin hash st [("email", email2), ("password", pw2)] tok =
        (st, ("Unauthorized", 403))) := by
  refine ⟨?_, ?_, ?_⟩
  · intro hmatch
    rw [signin_eval hash st email pw tok he hp, hu]
    exact if_neg (by simp [hne, hmatch])
  · intro hmiss
    rw [signin_eval hash st email pw tok he hp, hu]
    exact if_pos (Or.inr hmiss)
  · intro email2 pw2 he2 hp2 hnone
    rw [signin_eval hash st email2 pw2 tok he2 hp2, hnone]

theorem signin_verify_hash_witness :
    signin (fun s => s) wState1 [("email", "x@y"), ("password", "q")] "tk" =
      (wState1, ("Unauthorized", 403)) :=
  (signin_verify_hash (fun s => s) wState1 "a@b" "p"
      [("email", "a@b"), ("name", "n"), ("password", "p")] "tk"
      (by decide) (by decide) rfl (by decide)).2.2 "x@y" "q"
    (by decide) (by decide) rfl

theorem signin_success (hash : String → String) (st : AppState)
    (email pw tok : String) (u : Rec)
    (he : email ≠ "") (hp : pw ≠ "") (hu : st.users email = some u) (hne : u ≠ [])
    (hpw : u.item "password" = hash pw) (hee : u.item "email" = email) :
    signin hash st [("email", email), ("password", pw)] tok =
      ({ st with
          tokens := fun e => if e = email then st.tokens e ++ [tok] else st.tokens e,
          session := { st.session with user := some email } },
        (tok, 200)) := by
  rw [signin_eval hash st email pw tok he hp, hu]
  exact (if_neg (by simp [hne, hpw])).trans (by rw [hee])

theorem signinMany_spec (hash : String → String) (email pw : String) (u : Rec)
    (he : email ≠ "") (hp : pw ≠ "") (hne : u ≠ [])
    (hpw : u.item "password" = hash pw) (hee : u.item "email" = email) :
    ∀ (toks : List String) (st : AppState), st.users email = some u →
      (signinMany hash st [("email", email), ("password", pw)] toks).users = st.users ∧
      (signinMany hash st [("email", email), ("password", pw)] toks).tokens email =
        st.tokens email ++ toks ∧
      (∀ e, e ≠ email →
        (signinMany hash st [("email", email), ("password", pw)] toks).tokens e =
          st.tokens e) := by
  intro toks
  induction toks with
  | nil => intro st _; exact ⟨rfl, by simp [signinMany], fun e _ => rfl⟩
  | cons t ts ih =>
    intro st hu
    have hs := signin_success hash st email pw t u he hp hu hne hpw hee
    have hstep : (signin hash st [("email", email), ("password", pw)] t).1 =
        { st with
            tokens := fun e => if e = email then st.tokens e ++ [t] else st.tokens e,
            session := { st.session with user := some email } } := by rw [hs]
    have hmany : signinMany hash st [("email", email), ("password", pw)] (t :: ts) =
        signinMany hash (signin hash st [("email", email), ("password", pw)] t).1
          [("email", email), ("password", pw)] ts := rfl
    obtain ⟨ih1, ih2, ih3⟩ :=
      ih (signin hash st [("email", email), ("password", pw)] t).1 (by rw [hstep]; exact hu)
    refine ⟨?_, ?_, ?_⟩
    · rw [hmany, ih1, hstep]
    · rw [hmany, ih2, hstep]
      simp
    · intro e hneq
      rw [hmany, ih3 e hneq, hstep]
      simp [hneq]

/-- C4: issuing N tokens for an email through N successful signins
appends exactly the N fresh draws to that email's registry list (so a
nodup supply — the collision-negligible uuid4 premise — yields N
distinct simultaneously live tokens), each of them is accepted by the
guard for that email, and any token is rejected as `InvalidToken` for
every email whose registry list does not contain it. -/
theorem signin_issued_tokens_bind_email (hash : String → String) (st : AppState)
    (email pw : String) (u : Rec) (toks : List String)
    (he : email ≠ "") (hp : pw ≠ "") (hu : st.users email = some u) (hne : u ≠ [])
    (hpw : u.item "password" = hash pw) (hee : u.item "email" = email) :
    (signinMany hash st [("email", email), ("password", pw)] toks).tokens email =
      st.tokens email ++ toks ∧
    (∀ t ∈ toks, t ∈ (signinMany hash st [("email", email), ("password", pw)] toks).tokens email) ∧
    (∀ t ∈ toks, words t = [t] →
      authenticate
          { signinMany hash st [("email", email), ("password", pw)] toks with
            session := { user := some email } }
          { authorization := some t } = .accept u st.users) ∧
    (∀ e2 t, e2 ≠ "" → words t = [t] →
      t ∉ (signinMany hash st [("email", email), ("password", pw)] toks).tokens e2 →
      authenticate
          { signinMany hash st [("email", email), ("password", pw)] toks with
            session := { user := some e2 } }
          { authorization := some t } = .reject .invalidToken) := by
  obtain ⟨h1, h2, h3⟩ := signinMany_spec hash email pw u he hp hne hpw hee toks st hu
  refine ⟨h2, ?_, ?_, ?_⟩
  · intro t ht
    rw [h2]
    exact List.mem_append_right _ ht
  · intro t ht hwt
    have hlast : (words ((some t : Option String).getD "")).getLast? = some t := by
      show (words t).getLast? = some t
      rw [hwt]
      simp
    have hmem : t ∈ (signinMany hash st [("email", email), ("password", pw)] toks).tokens email := by
      rw [h2]
      exact List.mem_append_right _ ht
    have hacc := auth_accept
      { signinMany hash st [("email", email), ("password", pw)] toks with
        session := { user := some email } }
      { authorization := some t } email t u rfl he hlast hmem (by rw [h1]; exact hu)
    rw [hacc, h1]
  · intro e2 t he2 hwt hnmem
    have hlast : (words ((some t : Option String).getD "")).getLast? = some t := by
      show (words t).getLast? = some t
      rw [hwt]
      simp
    exact auth_invalid
      { signinMany hash st [("email", email), ("password", pw)] toks with
        session := { user := some e2 } }
      { authorization := some t } e2 t rfl he2 hlast hnmem

theorem signin_issued_tokens_bind_email_witness :
    (signinMany (fun s => s) wState1 [("email", "a@b"), ("password", "p")]
        ["t1", "t2"]).tokens "a@b" = wState1.tokens "a@b" ++ ["t1", "t2"] ∧
    authenticate
        { signinMany (fun s => s) wState1 [("email", "a@b"), ("password", "p")]
            ["t1", "t2"] with
          session := { user := some "a@b" } }
        { authorization := some "t1" } =
      .accept [("email", "a@b"), ("name", "n"), ("password", "p")] wState1.users ∧
    authenticate
        { signinMany (fun s => s) wState1 [("email", "a@b"), ("password", "p")]
            ["t1", "t2"] with
          session := { user := some "c@d" } }
        { authorization := some "t1" } = .reject .invalidToken := by
  have h := signin_issued_tokens_bind_email (fun s => s) wState1 "a@b" "p"
    [("email", "a@b"), ("name", "n"), ("password", "p")] ["t1", "t2"]
    (by decide) (by decide) rfl (by decide) (by decide) (by decide)
  exact ⟨h.1, h.2.2.1 "t1" (by decide) (by decide),
    h.2.2.2 "c@d" "t1" (by decide) (by decide) (by decide)⟩

theorem inv_init : Inv initState :=
  ⟨fun _ h => absurd rfl h,
   fun _ h => Option.noConfusion h,
   fun _ _ h => Option.noConfusion h⟩

theorem inv_signup (hash : String → String) (st : AppState) (body : Rec)
    (h : Inv st) : Inv (signup hash st body).1 := by
  unfold signup
  cases hreq : require ["name", "email", "password"] body with
  | error e => exact h
  | ok params =>
    show Inv ((if (st.users (params.item "email")).isSome = true then
        (st, ("User " ++ params.item "email" ++ " already exists", 409))
      else
        ({ st with
            users := fun e =>
              if e = params.item "email" then
                some [("email", params.item "email"), ("name", params.item "name"),
                      ("password", hash (params.item "password"))]
              else st.users e },
          ("Created", 201))).1)
    by_cases hex : (st.users (params.item "email")).isSome = true
    · rw [if_pos hex]
      exact h
    · rw [if_neg hex]
      refine ⟨?_, ?_, ?_⟩
      · intro e htok
        by_cases he : e = params.item "email" <;> simp [he]
        exact h.1 e htok
      · intro e
        by_cases he : e = params.item "email" <;> simp [he]
        exact h.2.1 e
      · intro e u hu
        by_cases he : e = params.item "email"
        · simp [he] at hu
          rw [← hu, he]
          rfl
        · simp [he] at hu
          exact h.2.2 e u hu

theorem inv_signin (hash : String → String) (st : AppState) (body : Rec)
    (tok : String) (h : Inv st) : Inv (signin hash st body tok).1 := by
  unfold signin
  cases hreq : require ["email", "password"] body with
  | error e => exact h
  | ok params =>
    show Inv ((match st.users (params.item "email") with
      | none => (st, ("Unauthorized", 403))
      | some user =>
        if user = [] ∨ user.item "password" ≠ hash (params.item "password") then
          (st, ("Unauthorized", 403))
        else
          ({ st with
              tokens := fun e =>
                if e = user.item "email" then st.tokens e ++ [tok] else st.tokens e,
              session := { st.session with user := some (user.item "email") } },
            (tok, 200))).1)
    cases hus : st.users (params.item "email") with
    | none => exact h
    | some user =>
      show Inv ((if user = [] ∨ user.item "password" ≠ hash (params.item "password") then
          (st, ("Unauthorized", 403))
        else
          ({ st with
              tokens := fun e =>
                if e = user.item "email" then st.tokens e ++ [tok] else st.tokens e,
              session := { st.session with user := some (user.item "email") } },
            (tok, 200))).1)
      by_cases hcond : user = [] ∨ user.item "password" ≠ hash (params.item "password")
      · rw [if_pos hcond]
        exact h
      · rw [if_neg hcond]
        refine ⟨?_, h.2.1, h.2.2⟩
        intro e htok
        by_cases he : e = user.item "email"
        · rw [he, h.2.2 (params.item "email") user hus, hus]
          rfl
        · simp only [he, if_false] at htok
          exact h.1 e htok

theorem inv_signout (st : AppState) (h : Inv st) : Inv (signout st).1 := h

theorem authenticate_accept_of_inv (st : AppState) (req : Request) (u : Rec)
    (f : String → Option Rec) (h : Inv st)
    (hacc : authenticate st req = .accept u f) :
    f = st.users ∧ ∃ e, st.users e = some u := by
  by_cases h0 : (st.session.user.getD "") = ""
  · rw [show authenticate st req = .reject .missingCookie by unfold authenticate; rw [if_pos h0]] at hacc
    exact AuthResult.noConfusion hacc
  · cases hg : (words (req.authorization.getD "")).getLast? with
    | none =>
      rw [show authenticate st req = .reject .missingBearer by
        unfold authenticate; rw [if_neg h0, hg]] at hacc
      exact AuthResult.noConfusion hacc
    | some tok =>
      rw [authenticate_of_getLast st req (st.session.user.getD "") tok rfl h0 hg] at hacc
      by_cases hmem : tok ∈ st.tokens (st.session.user.getD "")
      · rw [if_pos hmem] at hacc
        cases hu : st.users (st.session.user.getD "") with
        | none =>
          exfalso
          have hsome : (st.users (st.session.user.getD "")).isSome :=
            h.1 _ (List.ne_nil_of_mem hmem)
          rw [hu] at hsome
          simp at hsome
        | some u0 =>
          rw [hu] at hacc
          have hacc2 : AuthResult.accept u0 st.users = AuthResult.accept u f := hacc
          injection hacc2 with h1 h2
          exact ⟨h2.symm, ⟨_, by rw [hu, h1]⟩⟩
      · rw [if_neg hmem] at hacc
        exact AuthResult.noConfusion hacc

theorem inv_whoami (st : AppState) (req : Request) (h : Inv st) :
    Inv (whoami st req).1 := by
  unfold whoami
  cases hacc : authenticate st req with
  | reject e => exact h
  | accept u f =>
    obtain ⟨hf, -⟩ := authenticate_accept_of_inv st req u f h hacc
    rw [hf]
    exact h

/-- C10: in every state reachable through the public controllers from
the empty initial state, any email whose Token Registry list is
non-empty has a User record in the Credential Store; consequently when
the guard accepts, the `Users[email]` defaultdict access performs no
insertion (the store is returned unchanged) and the resolved record is
one the store already held — never the silently-inserted empty
record. -/
theorem reachable_registry_users_exist (hash : String → String) (st : AppState)
    (h : Reachable hash st) :
    (∀ e, st.tokens e ≠ [] → (st.users e).isSome) ∧
    (∀ req u f, authenticate st req = .accept u f →
      f = st.users ∧ (∃ e, st.users e = some u) ∧ u ≠ []) := by
  have hinv : Inv st := by
    induction h with
    | init => exact inv_init
    | step_signup st2 body _ ih => exact inv_signup hash st2 body ih
    | step_signin st2 body tok _ ih => exact inv_signin hash st2 body tok ih
    | step_signout st2 _ ih => exact inv_signout st2 ih
    | step_whoami st2 req _ ih => exact inv_whoami st2 req ih
  refine ⟨hinv.1, fun req u f hacc => ?_⟩
  obtain ⟨hf, e, he⟩ := authenticate_accept_of_inv st req u f hinv hacc
  exact ⟨hf, ⟨e, he⟩, fun hnil => hinv.2.1 e (by rw [he, hnil])⟩

theorem reachable_registry_users_exist_witness :
    wState2.tokens "a@b" ≠ [] ∧ (wState2.users "a@b").isSome = true := by
  have h := reachable_registry_users_exist (fun s => s) wState2
    (Reachable.step_signin wState1 [("email", "a@b"), ("password", "p")] "tok-1"
      (Reachable.step_signup initState wBody Reachable.init))
  exact ⟨by decide, h.1 "a@b" (by decide)⟩

end ApiAuth
